import Mathlib

/-!
Shallow embedding of `src/params.h`, a single-header C++ command-line
argument parser (namespace `Params`).

Modelling conventions:
* C++ strings are Lean `String`s; the mutable working string of `argparse`
  is processed as a `List Char`.
* The caller-supplied `void*` destination of each option is modelled as a
  typed `Dest` stored inside the `Param` record (a scalar cell when the
  option consumes one value, an appendable sequence otherwise).
* `float`/`double` values are carried as exact rationals parsed from the
  decimal text; rounding, hex-float and inf/nan spellings of `strtof` are
  not modelled.  Integer overflow of `stoi`/`stol` is not modelled either
  (`Int` is unbounded); `stoul`'s wrap of negative input and the
  truncating `unsigned long -> unsigned int` assignment are modelled.
* Every `fprintf(stderr, ...); exit(1)` site becomes a distinct `Err`
  value; an exception escaping uncaught (the scalar conversion branches
  have no try/catch) becomes the separate `Err.uncaughtConv` value, since
  it terminates the process without the parser's diagnostic.
* `Param::set` is left uninitialized by the C++ constructor for
  non-boolean descriptors; the indeterminate initial value is made
  explicit as the `junkSet` argument of `Param.make`.
* The unterminated-quote case of the word scanner makes the C++ loop run
  forever; it is reported as `ParseResult.hang`.  The word scanner is
  given explicit fuel (`tokenizeF`) to make it structurally recursive;
  fuel `cs.length` is enough for every input, since every step of the
  C++ scan that does not hang consumes at least one character.
-/

/-- The option type tags of `enum class TYPE` (src/params.h:95). -/
inductive TYPE
  | BOOL | INT | UINT | FLOAT | LONG | DOUBLE | CHAR | STRING
deriving DecidableEq, Repr

/-- A typed value held in a destination cell. -/
inductive Value
  | vBool (b : Bool)
  | vInt (n : Int)
  | vUInt (n : Nat)
  | vFloat (q : ℚ)
  | vLong (n : Int)
  | vDouble (q : ℚ)
  | vChar (c : Char)
  | vStr (s : String)
deriving DecidableEq, Repr

/-- A caller-supplied destination: a scalar variable (used when
`xargs == 1`) or a vector that values are pushed onto (used otherwise). -/
inductive Dest
  | scalar (v : Value)
  | seq (vs : List Value)
deriving DecidableEq, Repr

/-- The fatal outcomes of the original code.  Each `fprintf`+`exit(1)`
site gets its own constructor; `uncaughtConv` is the uncaught
`std::invalid_argument` escaping from the try/catch-free scalar
conversion branches of `Param::Set` (src/params.h:154,170,185,202,217),
which terminates the process without any parser diagnostic. -/
inductive Err
  | invalidBoolDefault (text : String)
  | convFailure (t : TYPE) (text : String)
  | uncaughtConv (t : TYPE) (text : String)
  | unknownOption (token : String)
  | missingRequired (phrase : String)
deriving DecidableEq, Repr

/-- `class Param` (src/params.h:99-112).  `dest` stands for the
`void* destination` the caller registered, with its pointee inlined. -/
structure Param where
  type : TYPE
  dest : Dest
  longPhrase : String
  helpPhrase : String
  xargs : Int
  required : Bool
  set : Bool
  defaultValue : String
deriving DecidableEq, Repr

/-- The whitespace set skipped by `std::stoi`/`strtol` (C `isspace`). -/
def isCppSpace (c : Char) : Bool :=
  c = ' ' || c = '\t' || c = '\n' || c = '\r' || c = Char.ofNat 11 || c = Char.ofNat 12

/-- Value of a digit string, most significant digit first. -/
def digitsVal (ds : List Char) : Nat :=
  ds.foldl (fun a c => a * 10 + (c.toNat - 48)) 0

/-- Split an optional leading sign; returns (isNegative, rest). -/
def splitSign : List Char → Bool × List Char
  | '-' :: r => (true, r)
  | '+' :: r => (false, r)
  | cs => (false, cs)

/-- `std::stoi` / `std::stol` (base 10): skip whitespace, optional sign,
longest digit prefix; `none` models the thrown `std::invalid_argument`
when no digits are present.  Overflow is not modelled. -/
def parseIntStr? (s : String) : Option Int :=
  let cs := s.data.dropWhile isCppSpace
  let p := splitSign cs
  let ds := p.2.takeWhile Char.isDigit
  if ds.isEmpty then none
  else if p.1 then some (-(digitsVal ds : Int)) else some ((digitsVal ds : Nat) : Int)

/-- `std::stoul`: same grammar as `stoi`; a negative input wraps modulo
2^64 (`unsigned long`). -/
def parseUIntStr? (s : String) : Option Nat :=
  (parseIntStr? s).map (fun n => (n % ((2 : Int) ^ 64)).toNat)

/-- `std::stof` / `std::stod`, decimal forms: skip whitespace, optional
sign, digits with optional fraction, optional exponent (the exponent is
only consumed when digits follow it, as `strtof` backtracks otherwise).
`none` models the thrown `std::invalid_argument`.  Hex-float and
inf/nan spellings are not modelled. -/
def parseFloatStr? (s : String) : Option ℚ :=
  let cs := s.data.dropWhile isCppSpace
  let p := splitSign cs
  let intDs := p.2.takeWhile Char.isDigit
  let cs1 := p.2.dropWhile Char.isDigit
  let fracDs := match cs1 with
    | '.' :: r => r.takeWhile Char.isDigit
    | _ => []
  let cs2 := match cs1 with
    | '.' :: r => r.dropWhile Char.isDigit
    | _ => cs1
  if intDs.isEmpty ∧ fracDs.isEmpty then none
  else
    let mant : ℚ := (digitsVal (intDs ++ fracDs) : ℚ) / (10 : ℚ) ^ fracDs.length
    let e : Int := match cs2 with
      | c :: r =>
          if c = 'e' ∨ c = 'E' then
            match r with
            | '-' :: r2 =>
                let ds := r2.takeWhile Char.isDigit
                if ds.isEmpty then 0 else -(digitsVal ds : Int)
            | '+' :: r2 =>
                let ds := r2.takeWhile Char.isDigit
                if ds.isEmpty then 0 else (digitsVal ds : Int)
            | _ =>
                let ds := r.takeWhile Char.isDigit
                if ds.isEmpty then 0 else (digitsVal ds : Int)
          else 0
      | [] => 0
    some ((if p.1 then -mant else mant) * (10 : ℚ) ^ e)

/-- `value[0]` of a `std::string` (the guard in `Param::Set` ensures the
string is non-empty; `Char.ofNat 0` is C++'s null character fallback). -/
def headChar (s : String) : Char :=
  match s.data with
  | [] => Char.ofNat 0
  | c :: _ => c

/-- The per-character `tolower` fold of `Param::Set`'s BOOL case
(src/params.h:139). -/
def strLower (s : String) : String :=
  String.mk (s.data.map Char.toLower)

/-- `vector::push_back` on the destination.  Pushing onto a scalar
destination is undefined behaviour in the C++ (the caller registered a
variable of the wrong shape); the model arbitrarily restarts a
sequence. -/
def seqPush : Dest → Value → Dest
  | .seq vs, v => .seq (vs ++ [v])
  | .scalar _, v => .seq [v]

/-- `Param::Set` (src/params.h:132-267): bind one raw word into the
destination, converting per type.  An empty value is ignored
(src/params.h:133-134).  The scalar (`xargs == 1`) numeric branches have
no try/catch, so their conversion failures are `Err.uncaughtConv`; the
vector branches catch and print the diagnostic, `Err.convFailure`. -/
def Param.Set (p : Param) (value : String) : Except Err Param :=
  if value = "" then .ok p
  else
    match p.type with
    | .BOOL =>
        let lowercase := strLower value
        if lowercase ≠ "false" ∧ lowercase ≠ "true" then
          .error (.invalidBoolDefault value)
        else if lowercase = "true" then
          .ok { p with dest := .scalar (.vBool true) }
        else
          .ok { p with dest := .scalar (.vBool false) }
    | .INT =>
        if p.xargs = 1 then
          match parseIntStr? value with
          | some n => .ok { p with dest := .scalar (.vInt n) }
          | none => .error (.uncaughtConv .INT value)
        else
          match parseIntStr? value with
          | some n => .ok { p with dest := seqPush p.dest (.vInt n) }
          | none => .error (.convFailure .INT value)
    | .FLOAT =>
        if p.xargs = 1 then
          match parseFloatStr? value with
          | some q => .ok { p with dest := .scalar (.vFloat q) }
          | none => .error (.uncaughtConv .FLOAT value)
        else
          match parseFloatStr? value with
          | some q => .ok { p with dest := seqPush p.dest (.vFloat q) }
          | none => .error (.convFailure .FLOAT value)
    | .DOUBLE =>
        if p.xargs = 1 then
          match parseFloatStr? value with
          | some q => .ok { p with dest := .scalar (.vDouble q) }
          | none => .error (.uncaughtConv .DOUBLE value)
        else
          match parseFloatStr? value with
          | some q => .ok { p with dest := seqPush p.dest (.vDouble q) }
          | none => .error (.convFailure .DOUBLE value)
    | .UINT =>
        if p.xargs = 1 then
          match parseUIntStr? value with
          | some n => .ok { p with dest := .scalar (.vUInt (n % 2 ^ 32)) }
          | none => .error (.uncaughtConv .UINT value)
        else
          match parseUIntStr? value with
          | some n => .ok { p with dest := seqPush p.dest (.vUInt (n % 2 ^ 32)) }
          | none => .error (.convFailure .UINT value)
    | .LONG =>
        if p.xargs = 1 then
          match parseIntStr? value with
          | some n => .ok { p with dest := .scalar (.vLong n) }
          | none => .error (.uncaughtConv .LONG value)
        else
          match parseIntStr? value with
          | some n => .ok { p with dest := seqPush p.dest (.vLong n) }
          | none => .error (.convFailure .LONG value)
    | .CHAR =>
        if p.xargs = 1 then
          .ok { p with dest := .scalar (.vChar (headChar value)) }
        else
          .ok { p with dest := seqPush p.dest (.vChar (headChar value)) }
    | .STRING =>
        if p.xargs = 1 then
          .ok { p with dest := .scalar (.vStr value) }
        else
          .ok { p with dest := seqPush p.dest (.vStr value) }

/-- The constructor `Param::Param` (src/params.h:116-130).  `dest0` is
the caller's variable at registration time (its previous contents);
`junkSet` is the indeterminate value of the never-initialized member
`bool set` for non-boolean descriptors (the C++ constructor assigns
`set` only in the `TYPE::BOOL` branch). -/
def Param.make (ty : TYPE) (dest0 : Dest) (longPhrase helpPhrase : String)
    (xargs : Int) (required : Bool) (defaultValue : String) (junkSet : Bool) :
    Except Err Param :=
  let p : Param :=
    { type := ty, dest := dest0, longPhrase := longPhrase, helpPhrase := helpPhrase,
      xargs := xargs, required := required, set := junkSet, defaultValue := defaultValue }
  if ty = .BOOL then
    let pb := { p with set := true, required := false }
    if defaultValue ≠ "" then pb.Set defaultValue else pb.Set "false"
  else if xargs = 1 then p.Set defaultValue
  else .ok p

/-- `std::map<string, Param*> params_map`: an association list kept in
ascending key order (the iteration order of `std::map`). -/
abbrev Registry := List (String × Param)

/-- `params_map.find(key)` (exact string lookup). -/
def mapFind? : Registry → String → Option Param
  | [], _ => none
  | (k, p) :: rest, key => if key = k then some p else mapFind? rest key

/-- Lexicographic order on character lists: the `std::string`
`operator<` that orders `std::map<string, Param*>` (byte order in C++,
scalar-value order here; they agree on ASCII keys). -/
def charListLt : List Char → List Char → Bool
  | [], [] => false
  | [], _ :: _ => true
  | _ :: _, [] => false
  | a :: as, b :: bs =>
      if a < b then true
      else if b < a then false
      else charListLt as bs

/-- Key order of the registry map. -/
def keyLt (a b : String) : Bool :=
  charListLt a.data b.data

/-- `params_map[key] = param`: sorted insert, replacing an existing
entry under the same key (last registration wins). -/
def mapInsert : Registry → String → Param → Registry
  | [], key, p => [(key, p)]
  | (k, q) :: rest, key, p =>
      if keyLt key k then (key, p) :: (k, q) :: rest
      else if key = k then (key, p) :: rest
      else (k, q) :: mapInsert rest key p

/-- One left-to-right pass of the `=`-to-space loop of `argparse`
(src/params.h:321-328) over the characters after the first space.
`prev` is the character written at the previous position (the loop reads
`args[pos-1]` from the partially mutated string; only `=` is ever
overwritten, and only with a space, so carrying the written character is
exact). -/
def replaceEqualsFrom : Char → List Char → List Char
  | _, [] => []
  | prev, c :: rest =>
      if c = '=' ∧ prev ≠ '\\' then ' ' :: replaceEqualsFrom ' ' rest
      else c :: replaceEqualsFrom c rest

/-- The whole `=`-to-space pass.  Faithful to the code's quirk: the scan
is seeded with `args.find(' ', 0)` — the first *space*, not the first
`=` — whose replacement is a no-op, and all later searches look for `=`
strictly after it.  Hence an `=` at or before the first space is never
replaced; with no space at all the loop body never runs. -/
def replaceEquals (cs : List Char) : List Char :=
  match cs.findIdx? (fun c => c == ' ') with
  | none => cs
  | some n => cs.take (n + 1) ++ replaceEqualsFrom ' ' (cs.drop (n + 1))

/-- Scan for the closing `"`; returns (content, rest-after-quote).
`none` means no closing quote exists — in the C++ this makes
`find` return npos and the outer scan loop restart at position 0
forever. -/
def splitAtQuote : List Char → Option (List Char × List Char)
  | [] => none
  | c :: rest =>
      if c = '"' then some ([], rest)
      else (splitAtQuote rest).map (fun pr => (c :: pr.1, pr.2))

/-- The word-boundary scan of `argparse` (src/params.h:329-347), fueled
to be structural: skip spaces; a word starting with `"` runs to the next
`"` (quotes excluded, escaping NOT honoured — the code uses a plain
`find('"')`); any other word runs to the next space.  `none` is the
non-terminating unterminated-quote case (fuel `≥ length` never runs
out otherwise, as each step consumes at least one character). -/
def tokenizeF : Nat → List Char → Option (List String)
  | _, [] => some []
  | 0, _ :: _ => none
  | fuel + 1, c :: rest =>
      if c = ' ' then tokenizeF fuel rest
      else if c = '"' then
        match splitAtQuote rest with
        | none => none
        | some pr => (tokenizeF fuel pr.2).map (fun ws => String.mk pr.1 :: ws)
      else
        let w := (c :: rest).takeWhile (fun ch => ch != ' ')
        let after := (c :: rest).dropWhile (fun ch => ch != ' ')
        (tokenizeF fuel after).map (fun ws => String.mk w :: ws)

/-- The word list of a working string. -/
def tokenize (cs : List Char) : Option (List String) :=
  tokenizeF cs.length cs

/-- Result of the word-interpretation loop of `argparse`
(src/params.h:348-382). -/
inductive InterpResult
  | done (r : Registry)
  | helpStop (r : Registry)
  | err (e : Err)
deriving DecidableEq, Repr

/-- The word-interpretation loop.  The state is `none` while reading an
option name, or `some (key, param, counter)` while reading value words
for `params_map[key]` (the C++ keeps a pointer `parameter` and the
`parameter_counter`; the registry entry is rewritten after each
mutation, mirroring the in-place pointer update). -/
def interpWords : Registry → Option (String × Param × Int) → List String → InterpResult
  | r, _, [] => .done r
  | r, none, w :: ws =>
      match mapFind? r w with
      | none => .err (.unknownOption w)
      | some p =>
          if p.type ≠ .BOOL then
            interpWords r (some (w, p, p.xargs)) ws
          else
            match p.Set "true" with
            | .error e => .err e
            | .ok p1 =>
                let r1 := mapInsert r w p1
                if w = "--help" then .helpStop r1 else interpWords r1 none ws
  | r, some (key, p, ctr), w :: ws =>
      match p.Set w with
      | .error e => .err e
      | .ok p1 =>
          let ctr1 := ctr - 1
          if ctr1 = 0 then
            interpWords (mapInsert r key { p1 with set := true }) none ws
          else if ctr1 < 0 then
            interpWords (mapInsert r key { p1 with set := true })
              (some (key, { p1 with set := true }, ctr1)) ws
          else
            interpWords (mapInsert r key p1) (some (key, p1, ctr1)) ws

/-- Overall result of `argparse`: normal return, the early `return`
taken when the matched phrase is exactly `"--help"`, an
`exit(1)`/uncaught-exception termination, or the infinite loop on an
unterminated quote. -/
inductive ParseResult
  | ok (r : Registry)
  | helpExit (r : Registry)
  | fatal (e : Err)
  | hang
deriving DecidableEq, Repr

/-- `args`: all argument words (after the program name) joined, each
followed by one space (src/params.h:316-320). -/
def joinedArgs (argv : List String) : List Char :=
  (argv.foldl (fun acc w => acc ++ w ++ " ") "").data

/-- The post-parse required-option check (src/params.h:383-388): first
registry entry, in map order, with `required` and not `set`. -/
def firstMissing? (r : Registry) : Option (String × Param) :=
  r.find? (fun e => e.2.required && !e.2.set)

/-- `argparse` (src/params.h:315-389), over the argument words already
excluding the program name (the C++ starts at `argv[1]`). -/
def argparse (r : Registry) (argv : List String) : ParseResult :=
  let args := replaceEquals (joinedArgs argv)
  match tokenize args with
  | none => .hang
  | some ws =>
      match interpWords r none ws with
      | .err e => .fatal e
      | .helpStop r1 => .helpExit r1
      | .done r1 =>
          match firstMissing? r1 with
          | some e => .fatal (.missingRequired e.2.longPhrase)
          | none => .ok r1

/-- The type-name strings of `argdetails`' switch (periods included,
src/params.h:400-425). -/
def typeNameStr : TYPE → String
  | .BOOL => "bool."
  | .INT => "int."
  | .FLOAT => "float."
  | .DOUBLE => "double."
  | .UINT => "unsigned int."
  | .LONG => "long."
  | .CHAR => "char."
  | .STRING => "string."

/-- `argdetails` (src/params.h:391-434): one formatted block per
registry entry, appended in map iteration order. -/
def argdetails (r : Registry) : String :=
  r.foldl (fun details e =>
    let d1 := details ++ "\t" ++ e.2.longPhrase
    let d2 := d1 ++ "\n\t\t" ++ e.2.helpPhrase
    let d3 :=
      if e.2.xargs > 0 ∧ e.2.type ≠ .BOOL then
        d2 ++ "\n\t\t" ++ toString e.2.xargs ++ " argument"
          ++ (if e.2.xargs ≠ 1 then "s" else "") ++ " of type " ++ typeNameStr e.2.type
      else d2
    let d4 :=
      if e.2.required = false then d3 ++ "\n\t\tdefault: '" ++ e.2.defaultValue ++ "'"
      else d3
    d4 ++ "\n") ""

/-- The value `Param::Set` stores for one word of the given type, shared
by the scalar and vector branches (they compute the same converted
value; only the destination shape differs).  `BOOL` is excluded: its
branch of `Set` ignores `xargs` and has its own true/false grammar. -/
def convVal? : TYPE → String → Option Value
  | .INT, w => (parseIntStr? w).map .vInt
  | .UINT, w => (parseUIntStr? w).map (fun n => .vUInt (n % 2 ^ 32))
  | .FLOAT, w => (parseFloatStr? w).map .vFloat
  | .DOUBLE, w => (parseFloatStr? w).map .vDouble
  | .LONG, w => (parseIntStr? w).map .vLong
  | .CHAR, w => some (.vChar (headChar w))
  | .STRING, w => some (.vStr w)
  | .BOOL, _ => none

/-- The numeric type tags (those converted via a `sto*` call). -/
def numericType : TYPE → Bool
  | .INT => true
  | .UINT => true
  | .FLOAT => true
  | .DOUBLE => true
  | .LONG => true
  | _ => false

/-- Spec-level description of one value-reading step of the unbounded
(`xargs == -1`) mode, for comparison with `interpWords`: the word is
bound unless empty (the binder ignores empty words) and `set` becomes
true either way.  The `none` fallback is unreachable whenever the
conversion-success hypothesis of the theorems holds. -/
def specBindWord (p : Param) (w : String) : Param :=
  if w = "" then { p with set := true }
  else
    match convVal? p.type w with
    | some v => { p with dest := seqPush p.dest v, set := true }
    | none => { p with set := true }

/-- Spec-level description of an entire unbounded-mode run over the
remaining words. -/
def specUnboundedRun (p : Param) (ws : List String) : Param :=
  ws.foldl specBindWord p

/-- Spec-level block of `argdetails` for one option, for comparison with
the accumulated string: phrase, help, an arity line exactly when the
arity is positive and the type is not boolean, a default line exactly
when not required. -/
def paramBlock (p : Param) : String :=
  "\t" ++ p.longPhrase ++ "\n\t\t" ++ p.helpPhrase
  ++ (if 0 < p.xargs ∧ p.type ≠ .BOOL then
        "\n\t\t" ++ toString p.xargs ++ " argument" ++ (if p.xargs ≠ 1 then "s" else "")
          ++ " of type " ++ typeNameStr p.type
      else "")
  ++ (if p.required = false then "\n\t\tdefault: '" ++ p.defaultValue ++ "'" else "")
  ++ "\n"

/-- Keys of a registry are in strictly ascending lexicographic order
(the `std::map` invariant). -/
def SortedKeys (r : Registry) : Prop :=
  r.Pairwise (fun a b => keyLt a.1 b.1 = true)

/-! ### Concrete registries used by the closed evaluation theorems -/

/-- A required `TYPE::INT` option `--seed`, as registered by
`addp(TYPE::INT, &seed, "--seed", ...)`: arity 1, required, no default.
The destination cell and the never-initialized `set` member start from
the arbitrary machine values `vInt 0` and `false`. -/
def seedParam : Param :=
  { type := .INT, dest := .scalar (.vInt 0), longPhrase := "--seed",
    helpPhrase := "The random seed.", xargs := 1, required := true,
    set := false, defaultValue := "" }

def regSeed : Registry := [("--seed", seedParam)]

/-- A required `TYPE::STRING` option `--name`, arity 1. -/
def nameParam : Param :=
  { type := .STRING, dest := .scalar (.vStr ""), longPhrase := "--name",
    helpPhrase := "The name.", xargs := 1, required := true,
    set := false, defaultValue := "" }

def regName : Registry := [("--name", nameParam)]

/-! ### Helper lemmas -/

theorem Param.Set_empty (p : Param) : p.Set "" = .ok p := by
  simp [Param.Set]

/-- Binding a non-empty word on a scalar (`xargs == 1`) non-boolean
descriptor: the converted value overwrites the scalar cell, and a failed
conversion escapes as an uncaught exception. -/
theorem Param.Set_scalar (p : Param) (w : String) (hb : p.type ≠ .BOOL)
    (hx : p.xargs = 1) (hw : w ≠ "") :
    p.Set w = match convVal? p.type w with
      | some v => .ok { p with dest := .scalar v }
      | none => .error (.uncaughtConv p.type w) := by
  cases htype : p.type <;>
    simp [Param.Set, convVal?, hw, hx, htype] at hb ⊢ <;>
    rcases hINT : parseIntStr? w with _ | n <;>
    rcases hF : parseFloatStr? w with _ | q <;>
    simp [parseUIntStr?, hINT, hF]

/-- Binding a non-empty word on a sequence (`xargs != 1`) non-boolean
descriptor: the converted value is pushed onto the vector, and a failed
conversion produces the caught diagnostic. -/
theorem Param.Set_seq (p : Param) (w : String) (hb : p.type ≠ .BOOL)
    (hx : p.xargs ≠ 1) (hw : w ≠ "") :
    p.Set w = match convVal? p.type w with
      | some v => .ok { p with dest := seqPush p.dest v }
      | none => .error (.convFailure p.type w) := by
  cases htype : p.type <;>
    simp [Param.Set, convVal?, hw, hx, htype] at hb ⊢ <;>
    rcases hINT : parseIntStr? w with _ | n <;>
    rcases hF : parseFloatStr? w with _ | q <;>
    simp [parseUIntStr?, hINT, hF]

/-- Inserting under one key leaves the entry found under any other key
unchanged. -/
theorem mapFind?_mapInsert_ne (r : Registry) (k k1 : String) (p : Param)
    (h : k1 ≠ k) : mapFind? (mapInsert r k p) k1 = mapFind? r k1 := by
  induction r with
  | nil => simp [mapInsert, mapFind?, h]
  | cons e rest ih =>
      obtain ⟨k2, q⟩ := e
      by_cases hlt : keyLt k k2 = true
      · simp [mapInsert, hlt, mapFind?, h]
      · by_cases heq : k = k2
        · subst heq
          simp [mapInsert, hlt, mapFind?, h]
        · simp [mapInsert, hlt, heq, mapFind?, ih]

/-- `charListLt` is irreflexive. -/
theorem charListLt_irrefl (cs : List Char) : charListLt cs cs = false := by
  induction cs with
  | nil => rfl
  | cons c cs ihc => simp [charListLt, ihc]

/-- `keyLt` is irreflexive. -/
theorem keyLt_irrefl (k : String) : keyLt k k = false := by
  simpa [keyLt] using charListLt_irrefl k.data

/-- Two consecutive inserts under the same key collapse to the last. -/
theorem mapInsert_mapInsert (r : Registry) (k : String) (p q : Param) :
    mapInsert (mapInsert r k p) k q = mapInsert r k q := by
  induction r with
  | nil => simp [mapInsert, keyLt_irrefl]
  | cons e rest ih =>
      obtain ⟨k2, w⟩ := e
      by_cases hlt : keyLt k k2 = true
      · simp [mapInsert, hlt, keyLt_irrefl]
      · by_cases heq : k = k2
        · subst heq
          simp [mapInsert, hlt, keyLt_irrefl]
        · simp [mapInsert, hlt, heq, ih]

/-- C1: the spec claims `--opt=value` always parses like `--opt value`
(every unescaped `=` in the joined string is replaced, "including within
the first argument word").  The code seeds its replacement loop with
`find(' ', 0)` — the first space — and only ever looks for `=` strictly
after it, so an `=` inside the first argument word is never replaced:
`--seed=3` as the first argument is looked up verbatim and rejected as
an unrecognized option, while `--seed 3` binds 3.  This contradicts the
code's own usage note "Supports equals sign or space: 1) --seed 3
2) --seed=3" (src/params.h:41), so it is a bug in the code. -/
theorem c1_equals_in_first_word_not_replaced :
    replaceEquals ("--seed=3 ".data) = "--seed=3 ".data
    ∧ argparse regSeed ["--seed=3"] = .fatal (.unknownOption "--seed=3")
    ∧ argparse regSeed ["--seed", "3"]
        = .ok [("--seed", { seedParam with dest := .scalar (.vInt 3), set := true })] :=
  ⟨by decide, by decide, by decide⟩

/-- C2: the spec claims a `\"` inside a quoted word does not terminate
it.  The code's word scan uses a plain `find('"')` (src/params.h:336),
despite its own comment "find end of string (not \", but \")"
(src/params.h:332), so the escaped quote DOES terminate the word: for
`--name "Jane\"Q"` the scanner extracts the words `Jane\` and `Q"`, the
latter is then read as an option token and rejected.  (The third
conjunct shows the unescaped part of the claim does hold: embedded
spaces inside quotes are preserved.) -/
theorem c2_escaped_quote_terminates_word :
    tokenize (replaceEquals (joinedArgs ["--name", "\"Jane\\\"Q\""]))
        = some ["--name", "Jane\\", "Q\""]
    ∧ argparse regName ["--name", "\"Jane\\\"Q\""] = .fatal (.unknownOption "Q\"")
    ∧ argparse regName ["--name", "\"Jane Q\""]
        = .ok [("--name", { nameParam with dest := .scalar (.vStr "Jane Q"), set := true })] :=
  ⟨by decide, by decide, by decide⟩

/-- C4: the required-option check itself is exactly as claimed
(src/params.h:383-388), but the claim's guarantee that an unsatisfied
required option "is never marked `isSet`" and is therefore always caught
relies on `set` starting false — and the C++ constructor never
initializes `bool set` for non-boolean descriptors (src/params.h:116-130
assigns it only in the `TYPE::BOOL` branch), despite the member's own
comment "if required then should be set by end of arparse (we check)"
(src/params.h:109).  When the indeterminate initial value reads as true
(first conjunct), a required option given no value slips through
validation and `argparse` returns normally with the destination never
written; only the lucky false reading (second conjunct) produces the
claimed `MissingRequiredOption` error. -/
theorem c4_uninitialized_set_defeats_required_check :
    argparse [("--seed", { seedParam with set := true })] ["--seed"]
        = .ok [("--seed", { seedParam with set := true })]
    ∧ argparse [("--seed", seedParam)] ["--seed"] = .fatal (.missingRequired "--seed") :=
  ⟨by decide, by decide⟩

/-- A numeric type tag is not `BOOL`. -/
theorem numericType_ne_bool (t : TYPE) (h : numericType t = true) : t ≠ .BOOL := by
  cases t <;> simp [numericType] at h ⊢

/-- Setting a boolean destination from the literal `"true"` (the parse
step for every matched boolean option). -/
theorem Param.Set_true_bool (p : Param) (h : p.type = .BOOL) :
    p.Set "true" = .ok { p with dest := .scalar (.vBool true) } := by
  have hl : strLower "true" = "true" := rfl
  simp [Param.Set, h, hl]

/-- C3 counterexample: for the arity-1 (scalar destination) option
`--seed` of type INT and the non-numeric word `abc`, the binding failure
is the uncaught exception escaping the try/catch-free scalar branch
(src/params.h:154), NOT the diagnostic error the claim describes — so
the claim is false for arity-1 options. -/
theorem c3_scalar_conversion_counterexample :
    argparse regSeed ["--seed", "abc"] = .fatal (.uncaughtConv .INT "abc")
    ∧ argparse regSeed ["--seed", "abc"] ≠ .fatal (.convFailure .INT "abc") :=
  ⟨by decide, by decide⟩

/-- C3 (amended): for every numeric-typed descriptor and every non-empty
word whose numeric conversion fails, binding is fatal in both shapes,
but only the sequence-destination (`xargs != 1`) branch produces the
diagnostic naming the expected type, echoing the offending text and
hinting that unbounded-arity options should be last
(src/params.h:157-163 etc.); the scalar (`xargs == 1`) branch lets the
conversion exception escape uncaught, with no diagnostic
(src/params.h:154).  (An empty word never reaches conversion at all:
`Param::Set` returns immediately on it.) -/
theorem c3_conversion_failure_amended (p : Param) (w : String)
    (hnum : numericType p.type = true) (hw : w ≠ "")
    (hfail : convVal? p.type w = none) :
    (p.xargs ≠ 1 → p.Set w = .error (.convFailure p.type w))
    ∧ (p.xargs = 1 → p.Set w = .error (.uncaughtConv p.type w)) := by
  constructor
  · intro hx
    rw [Param.Set_seq p w (numericType_ne_bool p.type hnum) hx hw, hfail]
  · intro hx
    rw [Param.Set_scalar p w (numericType_ne_bool p.type hnum) hx hw, hfail]

/-- Witness for C3's amended theorem at type INT and word `abc`:
a 2-argument (vector) descriptor gets the diagnostic, an arity-1
(scalar) descriptor gets the uncaught exception. -/
theorem c3_conversion_failure_witness :
    ({ seedParam with xargs := 2, dest := .seq [] } : Param).Set "abc"
        = .error (.convFailure .INT "abc")
    ∧ seedParam.Set "abc" = .error (.uncaughtConv .INT "abc") :=
  ⟨(c3_conversion_failure_amended { seedParam with xargs := 2, dest := .seq [] } "abc"
      (by decide) (by decide) (by decide)).1 (by decide),
   (c3_conversion_failure_amended seedParam "abc"
      (by decide) (by decide) (by decide)).2 (by decide)⟩

/-- C5: whenever `--help` is registered as a boolean option and the word
`--help` is reached in option-reading state, the loop sets the bound
destination to true and returns at once (src/params.h:363-367): the
result registry is the current one updated at `--help` only, no later
word is interpreted, and `argparse` turns that early stop directly into
a normal return without ever running the required-option validation
pass (src/params.h:383-388 is skipped). -/
theorem c5_help_short_circuits (r : Registry) (p : Param) (rest : List String)
    (hfind : mapFind? r "--help" = some p) (hbool : p.type = .BOOL) :
    interpWords r none ("--help" :: rest)
        = .helpStop (mapInsert r "--help" { p with dest := .scalar (.vBool true) })
    ∧ ∀ (argv : List String) (ws : List String) (r1 : Registry),
        tokenize (replaceEquals (joinedArgs argv)) = some ws →
        interpWords r none ws = .helpStop r1 →
        argparse r argv = .helpExit r1 := by
  constructor
  · simp [interpWords, hfind, hbool, Param.Set_true_bool p hbool]
  · intro argv ws r1 htok hinterp
    simp [argparse, htok, hinterp]

/-- The registry of the help witness: a boolean `--help` plus a required
INT `--iterations` that is never supplied. -/
def helpParam : Param :=
  { type := .BOOL, dest := .scalar (.vBool false), longPhrase := "--help",
    helpPhrase := "Prints this help message.", xargs := 1, required := false,
    set := true, defaultValue := "" }

def iterParam : Param :=
  { type := .INT, dest := .scalar (.vInt 0), longPhrase := "--iterations",
    helpPhrase := "The number of iterations.", xargs := 1, required := true,
    set := false, defaultValue := "" }

def regHelp : Registry := [("--help", helpParam), ("--iterations", iterParam)]

/-- Witness for C5: parsing `["--help", "junk", "--bogus"]` against a
registry with an unsatisfied required option returns normally with the
help destination true — the junk words are never interpreted and no
missing-required error is raised. -/
theorem c5_help_short_circuits_witness :
    argparse regHelp ["--help", "junk", "--bogus"]
        = .helpExit (mapInsert regHelp "--help"
            { helpParam with dest := .scalar (.vBool true) }) :=
  (c5_help_short_circuits regHelp helpParam ["junk", "--bogus"]
      (by decide) (by decide)).2
    ["--help", "junk", "--bogus"] ["--help", "junk", "--bogus"] _
    (by decide)
    (c5_help_short_circuits regHelp helpParam ["junk", "--bogus"]
      (by decide) (by decide)).1

/-- C9: registering any boolean option forces `required` to false no
matter what the caller passed, writes the destination immediately at
registration (true for a default that lowercases to `"true"`, false for
an absent default or one that lowercases to `"false"`), and any other
non-empty default is the fatal configuration error of
src/params.h:140-143, raised from the constructor itself — i.e. at
registration time, not at parse time. -/
theorem c9_bool_registration (d0 : Dest) (lp hp : String) (x : Int)
    (req : Bool) (d : String) (junk : Bool) :
    (strLower d = "true" →
      Param.make .BOOL d0 lp hp x req d junk
        = .ok { type := .BOOL, dest := .scalar (.vBool true), longPhrase := lp,
                helpPhrase := hp, xargs := x, required := false, set := true,
                defaultValue := d })
    ∧ ((d = "" ∨ strLower d = "false") →
      Param.make .BOOL d0 lp hp x req d junk
        = .ok { type := .BOOL, dest := .scalar (.vBool false), longPhrase := lp,
                helpPhrase := hp, xargs := x, required := false, set := true,
                defaultValue := d })
    ∧ (d ≠ "" → strLower d ≠ "true" → strLower d ≠ "false" →
      Param.make .BOOL d0 lp hp x req d junk = .error (.invalidBoolDefault d)) := by
  refine ⟨?_, ?_, ?_⟩
  · intro hl
    have hne : d ≠ "" := by
      intro h
      rw [h] at hl
      exact absurd hl (by decide)
    simp [Param.make, hne, Param.Set, hl]
  · rintro (h | hl)
    · subst h
      have hf : strLower "false" = "false" := rfl
      simp [Param.make, Param.Set, hf]
    · have hne : d ≠ "" := by
        intro h
        rw [h] at hl
        exact absurd hl (by decide)
      simp [Param.make, hne, Param.Set, hl]
  · intro hne ht hf
    simp [Param.make, hne, Param.Set, ht, hf]

/-- If no word of the remaining input equals `lp`, and the option
currently being read (if any) is not keyed `lp`, the interpretation loop
never rewrites the registry entry at `lp`. -/
theorem interpWords_preserves (lp : String) :
    ∀ (ws : List String) (r : Registry) (st : Option (String × Param × Int))
      (r1 : Registry),
      (∀ w ∈ ws, w ≠ lp) →
      (∀ k q c, st = some (k, q, c) → k ≠ lp) →
      interpWords r st ws = .done r1 →
      mapFind? r1 lp = mapFind? r lp := by
  intro ws
  induction ws with
  | nil =>
      intro r st r1 _ _ heq
      cases st with
      | none =>
          simp only [interpWords, InterpResult.done.injEq] at heq
          rw [← heq]
      | some s =>
          simp only [interpWords, InterpResult.done.injEq] at heq
          rw [← heq]
  | cons w ws ih =>
      intro r st r1 hws hst heq
      have hw : w ≠ lp := hws w (by simp)
      have hws1 : ∀ x ∈ ws, x ≠ lp := fun x hx => hws x (by simp [hx])
      cases st with
      | none =>
          simp only [interpWords] at heq
          cases hfind : mapFind? r w with
          | none =>
              simp only [hfind] at heq
              exact absurd heq (by simp)
          | some p =>
              simp only [hfind] at heq
              by_cases hb : p.type ≠ .BOOL
              · rw [if_pos hb] at heq
                refine ih r (some (w, p, p.xargs)) r1 hws1 ?_ heq
                intro k q c hkc
                rw [Option.some.injEq, Prod.mk.injEq] at hkc
                rw [← hkc.1]
                exact hw
              · rw [if_neg hb] at heq
                cases hset : p.Set "true" with
                | error e =>
                    simp only [hset] at heq
                    exact absurd heq (by simp)
                | ok p1 =>
                    simp only [hset] at heq
                    by_cases hh : w = "--help"
                    · rw [if_pos hh] at heq
                      exact absurd heq (by simp)
                    · rw [if_neg hh] at heq
                      have hpres := ih (mapInsert r w p1) none r1 hws1 (by simp) heq
                      rw [hpres, mapFind?_mapInsert_ne r w lp p1 (Ne.symm hw)]
      | some s =>
          obtain ⟨k, q, c⟩ := s
          have hk : k ≠ lp := hst k q c rfl
          simp only [interpWords] at heq
          cases hset : q.Set w with
          | error e =>
              simp only [hset] at heq
              exact absurd heq (by simp)
          | ok p1 =>
              simp only [hset] at heq
              by_cases h0 : c - 1 = 0
              · rw [if_pos h0] at heq
                have hpres := ih (mapInsert r k { p1 with set := true }) none r1 hws1
                  (by simp) heq
                rw [hpres, mapFind?_mapInsert_ne r k lp _ (Ne.symm hk)]
              · rw [if_neg h0] at heq
                by_cases hneg : c - 1 < 0
                · rw [if_pos hneg] at heq
                  have hpres := ih (mapInsert r k { p1 with set := true })
                    (some (k, { p1 with set := true }, c - 1)) r1 hws1 ?_ heq
                  · rw [hpres, mapFind?_mapInsert_ne r k lp _ (Ne.symm hk)]
                  · intro k2 q2 c2 hkc
                    rw [Option.some.injEq, Prod.mk.injEq] at hkc
                    rw [← hkc.1]
                    exact hk
                · rw [if_neg hneg] at heq
                  have hpres := ih (mapInsert r k p1) (some (k, p1, c - 1)) r1 hws1 ?_ heq
                  · rw [hpres, mapFind?_mapInsert_ne r k lp _ (Ne.symm hk)]
                  · intro k2 q2 c2 hkc
                    rw [Option.some.injEq, Prod.mk.injEq] at hkc
                    rw [← hkc.1]
                    exact hk

/-- C6: a non-boolean arity-1 option with non-empty, convertible default
is bound at registration time — the constructor (src/params.h:126-128)
writes the converted default into the scalar destination — and if no
word of a later (successful) parse equals the option's phrase, the parse
pass never rewrites that registry entry, so the destination still holds
the converted default afterwards. -/
theorem c6_default_bound_at_registration (ty : TYPE) (d0 : Dest)
    (lp hp d : String) (req junk : Bool) (v : Value)
    (hb : ty ≠ .BOOL) (hd : d ≠ "") (hconv : convVal? ty d = some v) :
    Param.make ty d0 lp hp 1 req d junk
        = .ok { type := ty, dest := .scalar v, longPhrase := lp, helpPhrase := hp,
                xargs := 1, required := req, set := junk, defaultValue := d }
    ∧ ∀ (r : Registry) (p : Param) (argv : List String) (ws : List String)
        (r1 : Registry),
        mapFind? r lp = some p →
        tokenize (replaceEquals (joinedArgs argv)) = some ws →
        (∀ w ∈ ws, w ≠ lp) →
        argparse r argv = .ok r1 →
        mapFind? r1 lp = some p := by
  constructor
  · have h1 : Param.make ty d0 lp hp 1 req d junk
        = Param.Set { type := ty, dest := d0, longPhrase := lp, helpPhrase := hp,
                      xargs := 1, required := req, set := junk, defaultValue := d } d := by
      simp [Param.make, hb]
    rw [h1, Param.Set_scalar _ d hb rfl hd]
    simp [hconv]
  · intro r p argv ws r1 hfind htok hws hparse
    simp only [argparse, htok] at hparse
    cases hint : interpWords r none ws with
    | err e =>
        simp only [hint] at hparse
        exact absurd hparse (by simp)
    | helpStop r2 =>
        simp only [hint] at hparse
        exact absurd hparse (by simp)
    | done r2 =>
        simp only [hint] at hparse
        cases hmiss : firstMissing? r2 with
        | some e =>
            simp only [hmiss] at hparse
            exact absurd hparse (by simp)
        | none =>
            simp only [hmiss, ParseResult.ok.injEq] at hparse
            rw [← hparse, interpWords_preserves lp ws r none r2 hws (by simp) hint,
              hfind]

/-- The `--name` descriptor as registered with default `"simulation"`
(not required), used by the C6 witness. -/
def nameDefParam : Param :=
  { type := .STRING, dest := .scalar (.vStr "simulation"), longPhrase := "--name",
    helpPhrase := "The name.", xargs := 1, required := false, set := false,
    defaultValue := "simulation" }

def regNameSeed : Registry := [("--name", nameDefParam), ("--seed", seedParam)]

/-- Witness for C6: registering `--name` with default `"simulation"`
binds the default immediately, and a successful parse of `--seed 7`
(which never mentions `--name`) leaves the `--name` entry — default
still bound — untouched. -/
theorem c6_default_bound_witness :
    Param.make .STRING (.scalar (.vStr "")) "--name" "The name." 1 false "simulation" false
        = .ok nameDefParam
    ∧ mapFind? [("--name", nameDefParam),
        ("--seed", { seedParam with dest := .scalar (.vInt 7), set := true })] "--name"
        = some nameDefParam :=
  ⟨(c6_default_bound_at_registration .STRING (.scalar (.vStr "")) "--name" "The name."
      "simulation" false false (.vStr "simulation") (by decide) (by decide) (by decide)).1,
   (c6_default_bound_at_registration .STRING (.scalar (.vStr "")) "--name" "The name."
      "simulation" false false (.vStr "simulation") (by decide) (by decide) (by decide)).2
     regNameSeed nameDefParam ["--seed", "7"] ["--seed", "7"] _
     (by decide) (by decide) (by decide) (by decide)⟩

/-- An unbounded-arity (`xargs == -1`) STRING option `--files`, as
registered by `addp(TYPE::STRING, &files, -1, "--files", ...)`. -/
def filesParam : Param :=
  { type := .STRING, dest := .seq [], longPhrase := "--files",
    helpPhrase := "The files.", xargs := -1, required := true,
    set := false, defaultValue := "" }

def regFiles : Registry := [("--files", filesParam)]

/-- C7 counterexample: with the unbounded option `--files` and the
invocation `--files a ""` (the last argument word being an escaped empty
quote), the scanner produces the three words `--files`, `a`, `` — two
words remain after the option — yet the final sequence holds only one
value, because `Param::Set` ignores empty words (src/params.h:133-134).
So "the final sequence length equals the count of remaining words" is
false as stated. -/
theorem c7_empty_word_counterexample :
    tokenize (replaceEquals (joinedArgs ["--files", "a", "\"\""]))
        = some ["--files", "a", ""]
    ∧ argparse regFiles ["--files", "a", "\"\""]
        = .ok [("--files", { filesParam with dest := .seq [.vStr "a"], set := true })]
    ∧ [Value.vStr "a"].length ≠ (["a", ""] : List String).length :=
  ⟨by decide, by decide, by decide⟩

/-- `specBindWord` always marks the descriptor set (the code decrements
the counter and assigns `set = true` whenever it is negative, even for
an ignored empty word, src/params.h:374-380). -/
theorem specBindWord_set (p : Param) (w : String) : (specBindWord p w).set = true := by
  unfold specBindWord
  by_cases hw : w = ""
  · simp [hw]
  · simp only [if_neg hw]
    cases convVal? p.type w <;> simp

/-- `specBindWord` changes only `dest` and `set`. -/
theorem specBindWord_fields (p : Param) (w : String) :
    (specBindWord p w).type = p.type ∧ (specBindWord p w).xargs = p.xargs := by
  unfold specBindWord
  by_cases hw : w = ""
  · simp [hw]
  · simp only [if_neg hw]
    cases convVal? p.type w <;> simp

/-- C7 (amended): in unbounded mode (counter already negative, as it is
from the start for the `xargs == -1` sentinel), the loop stays in
value-reading state for the same option until end of input; every word —
empty or not — marks `isSet` true, which then remains true; each
remaining non-empty word (whose conversion must succeed, else the parse
aborts) is appended to the destination sequence, and empty words are
skipped by the binder, so the final sequence grows by exactly the count
of non-empty remaining words. -/
theorem c7_unbounded_consumes_rest :
    ∀ (ws : List String) (r : Registry) (key : String) (p : Param) (c : Int),
      c < 0 → p.type ≠ .BOOL → p.xargs ≠ 1 →
      (∀ w ∈ ws, w ≠ "" → convVal? p.type w ≠ none) →
      interpWords r (some (key, p, c)) ws
          = .done (if ws.isEmpty then r else mapInsert r key (specUnboundedRun p ws))
      ∧ (specUnboundedRun p ws).set = (p.set || !ws.isEmpty)
      ∧ (∀ vs0, p.dest = .seq vs0 →
          ∃ l, (specUnboundedRun p ws).dest = .seq (vs0 ++ l)
            ∧ l.length = (ws.filter (fun w => w ≠ "")).length) := by
  intro ws
  induction ws with
  | nil =>
      intro r key p c _ _ _ _
      refine ⟨by simp [interpWords], by simp [specUnboundedRun], ?_⟩
      intro vs0 h0
      exact ⟨[], by simp [specUnboundedRun, h0], by simp⟩
  | cons w ws ih =>
      intro r key p c hc hb hx hconv
      have hc1 : c - 1 < 0 := by omega
      have hc1ne : ¬(c - 1 = 0) := by omega
      have hp1empty : w = "" → specBindWord p w = { p with set := true } := by
        intro hw
        simp [specBindWord, hw]
      have hp1conv : ∀ v, w ≠ "" → convVal? p.type w = some v →
          specBindWord p w = { p with dest := seqPush p.dest v, set := true } := by
        intro v hw hcv
        simp [specBindWord, hw, hcv]
      have hset1 : (specBindWord p w).set = true := specBindWord_set p w
      have hfields := specBindWord_fields p w
      have hone : interpWords r (some (key, p, c)) (w :: ws)
          = interpWords (mapInsert r key (specBindWord p w))
              (some (key, specBindWord p w, c - 1)) ws := by
        by_cases hw : w = ""
        · have hsetw : p.Set w = .ok p := by
            rw [hw]
            exact Param.Set_empty p
          simp only [interpWords, hsetw]
          rw [if_neg hc1ne, if_pos hc1, hp1empty hw]
        · rcases hcv : convVal? p.type w with _ | v
          · exact absurd hcv (hconv w (by simp) hw)
          · have hsetw : p.Set w = .ok { p with dest := seqPush p.dest v } := by
              rw [Param.Set_seq p w hb hx hw, hcv]
            simp only [interpWords, hsetw]
            rw [if_neg hc1ne, if_pos hc1, hp1conv v hw hcv]
      have hconv1 : ∀ x ∈ ws, x ≠ "" → convVal? (specBindWord p w).type x ≠ none := by
        intro x hxmem hxne
        rw [hfields.1]
        exact hconv x (by simp [hxmem]) hxne
      have hrec := ih (mapInsert r key (specBindWord p w)) key (specBindWord p w)
        (c - 1) hc1 (by rw [hfields.1]; exact hb) (by rw [hfields.2]; exact hx) hconv1
      have hrun : specUnboundedRun p (w :: ws) = specUnboundedRun (specBindWord p w) ws :=
        rfl
      refine ⟨?_, ?_, ?_⟩
      · rw [hone, hrec.1]
        by_cases hemp : ws.isEmpty
        · have : ws = [] := by
            cases ws
            · rfl
            · simp at hemp
          subst this
          simp [hrun, specUnboundedRun]
        · rw [if_neg (by simp [hemp] : ¬(ws.isEmpty = true)), mapInsert_mapInsert]
          simp [hrun]
      · rw [hrun, hrec.2.1, hset1]
        simp
      · intro vs0 h0
        by_cases hw : w = ""
        · have hdest1 : (specBindWord p w).dest = .seq vs0 := by
            rw [hp1empty hw]
            exact h0
          obtain ⟨l, hl1, hl2⟩ := hrec.2.2 vs0 hdest1
          refine ⟨l, by rw [hrun]; exact hl1, ?_⟩
          rw [hl2]
          simp [hw, List.filter]
        · rcases hcv : convVal? p.type w with _ | v
          · exact absurd hcv (hconv w (by simp) hw)
          · have hdest1 : (specBindWord p w).dest = .seq (vs0 ++ [v]) := by
              rw [hp1conv v hw hcv]
              simp [h0, seqPush]
            obtain ⟨l, hl1, hl2⟩ := hrec.2.2 (vs0 ++ [v]) hdest1
            refine ⟨v :: l, ?_, ?_⟩
            · rw [hrun, hl1]
              simp
            · rw [List.filter_cons, if_pos (by simp [hw])]
              simp [hl2]

/-- Witness for C7 at the unbounded STRING option `--files`, counter at
the sentinel `-1`, with remaining words `a b`. -/
theorem c7_unbounded_witness :
    interpWords regFiles (some ("--files", filesParam, -1)) ["a", "b"]
        = .done (if (["a", "b"] : List String).isEmpty then regFiles
            else mapInsert regFiles "--files" (specUnboundedRun filesParam ["a", "b"]))
    ∧ (specUnboundedRun filesParam ["a", "b"]).set
        = (filesParam.set || !(["a", "b"] : List String).isEmpty)
    ∧ (∀ vs0, filesParam.dest = .seq vs0 →
        ∃ l, (specUnboundedRun filesParam ["a", "b"]).dest = .seq (vs0 ++ l)
          ∧ l.length = ((["a", "b"] : List String).filter (fun w => w ≠ "")).length) :=
  c7_unbounded_consumes_rest ["a", "b"] regFiles "--files" filesParam (-1)
    (by decide) (by decide) (by decide) (by decide)

/-- `charListLt` is transitive. -/
theorem charListLt_trans (a : List Char) :
    ∀ b c, charListLt a b = true → charListLt b c = true → charListLt a c = true := by
  induction a with
  | nil =>
      intro b c hab hbc
      cases b with
      | nil => simp [charListLt] at hab
      | cons y bs =>
          cases c with
          | nil => simp [charListLt] at hbc
          | cons z cs => simp [charListLt]
  | cons x as ih =>
      intro b c hab hbc
      cases b with
      | nil => simp [charListLt] at hab
      | cons y bs =>
          cases c with
          | nil => simp [charListLt] at hbc
          | cons z cs =>
              by_cases hxy : x < y
              · by_cases hyz : y < z
                · simp [charListLt, lt_trans hxy hyz]
                · by_cases hzy : z < y
                  · simp [charListLt, hyz, hzy] at hbc
                  · have hyzeq : y = z := le_antisymm (not_lt.mp hzy) (not_lt.mp hyz)
                    subst hyzeq
                    simp [charListLt, hxy]
              · by_cases hyx : y < x
                · simp [charListLt, hxy, hyx] at hab
                · have hxyeq : x = y := le_antisymm (not_lt.mp hyx) (not_lt.mp hxy)
                  subst hxyeq
                  simp [charListLt, lt_irrefl] at hab
                  by_cases hxz : x < z
                  · simp [charListLt, hxz]
                  · by_cases hzx : z < x
                    · simp [charListLt, hxz, hzx] at hbc
                    · have hxzeq : x = z := le_antisymm (not_lt.mp hzx) (not_lt.mp hxz)
                      subst hxzeq
                      simp [charListLt, lt_irrefl] at hbc ⊢
                      exact ih bs cs hab hbc

/-- `charListLt`: of two distinct lists, one is below the other. -/
theorem charListLt_of_not_lt (a : List Char) :
    ∀ b, charListLt a b = false → a ≠ b → charListLt b a = true := by
  induction a with
  | nil =>
      intro b hab hne
      cases b with
      | nil => exact absurd rfl hne
      | cons y bs => simp [charListLt] at hab
  | cons x as ih =>
      intro b hab hne
      cases b with
      | nil => simp [charListLt]
      | cons y bs =>
          by_cases hxy : x < y
          · simp [charListLt, hxy] at hab
          · by_cases hyx : y < x
            · simp [charListLt, hyx]
            · have hxyeq : x = y := le_antisymm (not_lt.mp hyx) (not_lt.mp hxy)
              subst hxyeq
              simp [charListLt, lt_irrefl] at hab ⊢
              refine ih bs hab ?_
              intro hcontra
              exact hne (by rw [hcontra])

/-- `keyLt` is transitive. -/
theorem keyLt_trans (a b c : String) (h1 : keyLt a b = true) (h2 : keyLt b c = true) :
    keyLt a c = true :=
  charListLt_trans a.data b.data c.data h1 h2

/-- Of two distinct keys, one is below the other. -/
theorem keyLt_of_not_lt (a b : String) (h : keyLt a b = false) (hne : a ≠ b) :
    keyLt b a = true := by
  refine charListLt_of_not_lt a.data b.data h ?_
  intro hdata
  exact hne (String.ext hdata)

/-- Every entry of `mapInsert r k p` is the inserted pair or an entry
of `r`. -/
theorem mapInsert_mem (r : Registry) (k : String) (p : Param) :
    ∀ e ∈ mapInsert r k p, e = (k, p) ∨ e ∈ r := by
  induction r with
  | nil => simp [mapInsert]
  | cons f rest ih =>
      obtain ⟨k2, q⟩ := f
      intro e he
      by_cases hlt : keyLt k k2 = true
      · have he2 : e ∈ (k, p) :: (k2, q) :: rest := by
          simpa only [mapInsert, if_pos hlt] using he
        rcases List.mem_cons.mp he2 with h | h
        · exact Or.inl h
        · exact Or.inr h
      · by_cases heq : k = k2
        · subst heq
          have he2 : e ∈ (k, p) :: rest := by
            simpa only [mapInsert, if_neg hlt, if_pos rfl] using he
          rcases List.mem_cons.mp he2 with h | h
          · exact Or.inl h
          · exact Or.inr (List.mem_cons_of_mem _ h)
        · have he2 : e ∈ (k2, q) :: mapInsert rest k p := by
            simpa only [mapInsert, if_neg hlt, if_neg heq] using he
          rcases List.mem_cons.mp he2 with h | h
          · exact Or.inr (by simp [h])
          · rcases ih e h with h2 | h2
            · exact Or.inl h2
            · exact Or.inr (List.mem_cons_of_mem _ h2)

/-- String append is associative (via the underlying character lists). -/
theorem strAppend_assoc (a b c : String) : a ++ b ++ c = a ++ (b ++ c) := by
  apply String.ext
  simp [String.data_append]

/-- Each iteration of the `argdetails` loop appends exactly one
`paramBlock` to the accumulated text. -/
theorem argdetails_eq_foldl (r : Registry) :
    argdetails r = r.foldl (fun d e => d ++ paramBlock e.2) "" := by
  unfold argdetails
  congr 1
  funext d e
  by_cases h1 : e.2.xargs > 0 ∧ e.2.type ≠ TYPE.BOOL <;>
    by_cases h2 : e.2.required = false <;>
    · apply String.ext
      simp [paramBlock, h1, h2, String.data_append]

/-- Shifting the accumulator out of the `argdetails` fold. -/
theorem foldl_paramBlock_shift (r : Registry) :
    ∀ acc : String, r.foldl (fun d e => d ++ paramBlock e.2) acc
      = acc ++ r.foldl (fun d e => d ++ paramBlock e.2) "" := by
  induction r with
  | nil =>
      intro acc
      apply String.ext
      simp [String.data_append]
  | cons e rest ih =>
      intro acc
      simp only [List.foldl_cons]
      rw [ih (acc ++ paramBlock e.2), ih ("" ++ paramBlock e.2)]
      apply String.ext
      simp [String.data_append]

/-- Inserting into a key-sorted registry keeps it key-sorted (so a
registry built by repeated registration is always iterated in ascending
lexicographic key order). -/
theorem mapInsert_sorted (k : String) (p : Param) :
    ∀ r : Registry, SortedKeys r → SortedKeys (mapInsert r k p) := by
  intro r
  induction r with
  | nil =>
      intro _
      simp [mapInsert, SortedKeys]
  | cons f rest ih =>
      obtain ⟨k2, q⟩ := f
      intro h
      simp only [SortedKeys, List.pairwise_cons] at h
      obtain ⟨hhead, htail⟩ := h
      by_cases hlt : keyLt k k2 = true
      · simp only [mapInsert, if_pos hlt, SortedKeys, List.pairwise_cons]
        refine ⟨?_, ?_, htail⟩
        · intro e he
          rcases List.mem_cons.mp he with h | h
          · rw [h]
            exact hlt
          · exact keyLt_trans k k2 e.1 hlt (hhead e h)
        · exact hhead
      · by_cases heq : k = k2
        · subst heq
          have hins : mapInsert ((k, q) :: rest) k p = (k, p) :: rest := by
            simp [mapInsert, if_neg hlt]
          rw [hins]
          simp only [SortedKeys, List.pairwise_cons]
          exact ⟨hhead, htail⟩
        · simp only [mapInsert, if_neg hlt, if_neg heq, SortedKeys, List.pairwise_cons]
          refine ⟨?_, ih htail⟩
          intro e he
          rcases mapInsert_mem rest k p e he with h | h
          · rw [h]
            exact keyLt_of_not_lt k k2 (by simpa using hlt) heq
          · exact hhead e h

/-- C8 counterexample: for the non-boolean unbounded-arity (`xargs ==
-1`) option `--files`, the rendered block has NO
"<arity> argument(s) of type <type-name>." line — the code's guard is
`xargs > 0 && type != BOOL` (src/params.h:396), so non-positive arity
also suppresses the line, not only boolean type as the claim states. -/
theorem c8_unbounded_arity_line_missing :
    argdetails [("--files", { filesParam with required := false })]
        = "\t--files\n\t\tThe files.\n\t\tdefault: ''\n"
    ∧ ¬ (" of type ".data
          <:+: (argdetails [("--files", { filesParam with required := false })]).data) :=
  ⟨by decide, by decide⟩

/-- C8 (amended): `argdetails` renders exactly one `paramBlock` per
registry entry, concatenated in registry list order — and registries
built by sorted insertion are always in strictly ascending lexicographic
key order; within each block the
"<arity> argument(s) of type <type-name>." line is present iff the arity
is positive AND the type is not boolean (so it is omitted for booleans
and for unbounded-arity options alike), and the
"default: '<defaultValue>'" line is present iff `required` is false.
Rendering is a pure function of the registry (it returns a string and
the registry is left untouched by construction). -/
theorem c8_blocks_in_key_order :
    (∀ r : Registry, argdetails r = String.join (r.map fun e => paramBlock e.2))
    ∧ (∀ (r : Registry) (k : String) (p : Param),
        SortedKeys r → SortedKeys (mapInsert r k p))
    ∧ (∀ p : Param, ¬(0 < p.xargs ∧ p.type ≠ .BOOL) →
        paramBlock p
          = "\t" ++ p.longPhrase ++ "\n\t\t" ++ p.helpPhrase
            ++ (if p.required = false then "\n\t\tdefault: '" ++ p.defaultValue ++ "'"
                else "")
            ++ "\n")
    ∧ (∀ p : Param, p.required = true →
        paramBlock p
          = "\t" ++ p.longPhrase ++ "\n\t\t" ++ p.helpPhrase
            ++ (if 0 < p.xargs ∧ p.type ≠ .BOOL then
                  "\n\t\t" ++ toString p.xargs ++ " argument"
                    ++ (if p.xargs ≠ 1 then "s" else "")
                    ++ " of type " ++ typeNameStr p.type
                else "")
            ++ "\n") := by
  refine ⟨?_, ?_, ?_, ?_⟩
  · intro r
    rw [argdetails_eq_foldl, String.join, List.foldl_map]
  · intro r k p h
    exact mapInsert_sorted k p r h
  · intro p h
    unfold paramBlock
    rw [if_neg h]
    apply String.ext
    simp [String.data_append]
  · intro p h
    unfold paramBlock
    rw [if_neg (by simp [h] : ¬(p.required = false))]
    apply String.ext
    simp [String.data_append]

/-- Witness for C8: the fold/block equality and sorted insertion on the
concrete help registry, and the block of the unbounded `--files` option
(arity line absent since its arity is non-positive). -/
theorem c8_blocks_witness :
    argdetails regHelp = String.join (regHelp.map fun e => paramBlock e.2)
    ∧ SortedKeys (mapInsert regHelp "--seed" seedParam)
    ∧ paramBlock filesParam
        = "\t" ++ filesParam.longPhrase ++ "\n\t\t" ++ filesParam.helpPhrase
          ++ (if filesParam.required = false then
                "\n\t\tdefault: '" ++ filesParam.defaultValue ++ "'"
              else "")
          ++ "\n" :=
  ⟨c8_blocks_in_key_order.1 regHelp,
   c8_blocks_in_key_order.2.1 regHelp "--seed" seedParam
     (by unfold SortedKeys regHelp; decide),
   c8_blocks_in_key_order.2.2.1 filesParam (by decide)⟩

/-- The `=`-replacement pass is length-preserving. -/
theorem replaceEqualsFrom_length (cs : List Char) :
    ∀ prev : Char, (replaceEqualsFrom prev cs).length = cs.length := by
  induction cs with
  | nil => intro prev; rfl
  | cons c rest ih =>
      intro prev
      unfold replaceEqualsFrom
      by_cases h : c = '=' ∧ prev ≠ '\\'
      · simp [h, ih]
      · simp [h, ih]

/-- Within the scanned suffix, an `=` whose predecessor (as currently
written) is not a backslash becomes a space. -/
theorem replaceEqualsFrom_getElem (cs : List Char) :
    ∀ (prev : Char) (j : Nat), cs[j]? = some '=' →
      (j = 0 → prev ≠ '\\') →
      (∀ j0, j = j0 + 1 → cs[j0]? ≠ some '\\') →
      (replaceEqualsFrom prev cs)[j]? = some ' ' := by
  induction cs with
  | nil =>
      intro prev j h _ _
      simp at h
  | cons c rest ih =>
      intro prev j hj h0 hpred
      cases j with
      | zero =>
          simp only [List.getElem?_cons_zero, Option.some.injEq] at hj
          have hp : prev ≠ '\\' := h0 rfl
          unfold replaceEqualsFrom
          rw [if_pos ⟨hj, hp⟩]
          simp
      | succ j1 =>
          simp only [List.getElem?_cons_succ] at hj
          unfold replaceEqualsFrom
          by_cases hc : c = '=' ∧ prev ≠ '\\'
          · rw [if_pos hc]
            simp only [List.getElem?_cons_succ]
            refine ih ' ' j1 hj (fun _ => by decide) ?_
            intro j0 hj0
            have hp := hpred (j0 + 1) (by omega)
            simpa using hp
          · rw [if_neg hc]
            simp only [List.getElem?_cons_succ]
            refine ih c j1 hj ?_ ?_
            · intro _
              have hp := hpred 0 (by omega)
              simp only [List.getElem?_cons_zero] at hp
              intro hcon
              exact hp (by rw [hcon])
            · intro j0 hj0
              have hp := hpred (j0 + 1) (by omega)
              simpa using hp

/-- C10: the `=`-to-space replacement runs over the whole joined string
before any quote-aware word scanning, so it is quote-blind: EVERY `=`
located strictly after the first space of the joined string whose
preceding character is not a backslash is turned into a space — in
particular one inside a quoted value (second conjunct: `--name "a=b"`
binds the string `a b`, not `a=b`). -/
theorem c10_equals_replaced_inside_quotes :
    (∀ (cs : List Char) (n i : Nat),
      cs.findIdx? (fun c => c == ' ') = some n →
      n < i →
      cs[i]? = some '=' →
      cs[i - 1]? ≠ some '\\' →
      (replaceEquals cs)[i]? = some ' ')
    ∧ argparse regName ["--name", "\"a=b\""]
        = .ok [("--name", { nameParam with dest := .scalar (.vStr "a b"), set := true })] := by
  constructor
  · intro cs n i hfind hni hi hpred
    unfold replaceEquals
    rw [hfind]
    have hilen : i < cs.length := by
      by_contra hcon
      push_neg at hcon
      rw [List.getElem?_len_le hcon] at hi
      exact absurd hi (by simp)
    have htake : (cs.take (n + 1)).length = n + 1 := by
      rw [List.length_take]
      omega
    rw [List.getElem?_append_right (by rw [htake]; omega), htake]
    refine replaceEqualsFrom_getElem (cs.drop (n + 1)) ' ' (i - (n + 1)) ?_
      (fun _ => by decide) ?_
    · rw [List.getElem?_drop, show n + 1 + (i - (n + 1)) = i by omega]
      exact hi
    · intro j0 hj0
      rw [List.getElem?_drop, show n + 1 + j0 = i - 1 by omega]
      exact hpred
  · decide

/-- Witness for C10's general conjunct: in `x =b`, the `=` at index 2
(after the first space at index 1, preceded by a space) is replaced. -/
theorem c10_equals_replaced_witness :
    (replaceEquals ['x', ' ', '=', 'b'])[2]? = some ' ' :=
  c10_equals_replaced_inside_quotes.1 ['x', ' ', '=', 'b'] 1 2
    (by decide) (by decide) (by decide) (by decide)

/-- Witness for C9: a boolean registered with `required = true` and
default `"TRUE"` ends up not-required with destination true; with no
default the destination is false; default `"maybe"` is the registration
error. -/
theorem c9_bool_registration_witness :
    Param.make .BOOL (.scalar (.vBool false)) "--flag" "h" 1 true "TRUE" false
        = .ok { type := .BOOL, dest := .scalar (.vBool true), longPhrase := "--flag",
                helpPhrase := "h", xargs := 1, required := false, set := true,
                defaultValue := "TRUE" }
    ∧ Param.make .BOOL (.scalar (.vBool false)) "--flag" "h" 1 true "" false
        = .ok { type := .BOOL, dest := .scalar (.vBool false), longPhrase := "--flag",
                helpPhrase := "h", xargs := 1, required := false, set := true,
                defaultValue := "" }
    ∧ Param.make .BOOL (.scalar (.vBool false)) "--flag" "h" 1 true "maybe" false
        = .error (.invalidBoolDefault "maybe") :=
  ⟨(c9_bool_registration (.scalar (.vBool false)) "--flag" "h" 1 true "TRUE" false).1
      (by decide),
   (c9_bool_registration (.scalar (.vBool false)) "--flag" "h" 1 true "" false).2.1
      (Or.inl rfl),
   (c9_bool_registration (.scalar (.vBool false)) "--flag" "h" 1 true "maybe" false).2.2
      (by decide) (by decide) (by decide)⟩
